import Mathlib

/-!
# MAX7219 driver (hmbusch/ICMI-MAX7219-Arduino)

A shallow embedding of the two driver variants of the repository:

* `ICMIMax7219` (`ICMIMax7219.cpp`), the bit-translating variant, whose
  parameters and fields are `uint8_t`;
* `Max7219` (`Max7219.cpp`), the plain variant, whose parameters and fields
  are `int`.

Every method is a function on a driver record that carries, next to the four
fields of the C++ object, the trace of calls made to the Arduino core
(`events`) and a ghost log of the arguments of every `writeRegister` call
(`writes`).  Bytes are natural numbers below 256; every place where C++
converts to `uint8_t` is an explicit `% 256`.
-/

namespace Arduino

/-- Level `HIGH` of `Arduino.h`. -/
def HIGH : Nat := 1

/-- Level `LOW` of `Arduino.h`. -/
def LOW : Nat := 0

/-- Pin mode `OUTPUT` of `Arduino.h`. -/
def OUTPUT : Nat := 1

/-- One call to a primitive of the Arduino core, with its (byte) arguments. -/
inductive Event where
  | pinMode (pin mode : Nat)
  | digitalWrite (pin val : Nat)
  | delayMicroseconds (us : Nat)
  deriving DecidableEq, Repr

/-- Conversion of a C++ `int` to `uint8_t`: reduction modulo 256. -/
def toByte (x : Int) : Nat := (x % 256).toNat

/-- Modelled from the spec: the Arduino core macro `bitRead` (Arduino.h is not
under src/), `(((value) >> (bit)) & 0x01)`: the bit of `value` at position
`bit`. -/
def bitRead (value bit : Nat) : Nat := (value >>> bit) &&& 1

/-- Modelled from the spec: the Arduino core macro `bitSet` (Arduino.h is not
under src/), `((value) |= (1UL << (bit)))`, on a `uint8_t` variable. -/
def bitSet (value bit : Nat) : Nat := (value ||| (1 <<< bit)) % 256

/-- Modelled from the spec: the Arduino core macro `bitClear` (Arduino.h is not
under src/), `((value) &= ~(1UL << (bit)))`, on a `uint8_t` variable; the
complement is taken on a 32-bit `unsigned long`. -/
def bitClear (value bit : Nat) : Nat :=
  (value &&& (0xFFFFFFFF ^^^ ((1 <<< bit) % 2 ^ 32))) % 256

/-- Modelled from the spec: the Arduino core macro `bitWrite` (Arduino.h is not
under src/), `(bitvalue ? bitSet(value, bit) : bitClear(value, bit))`. -/
def bitWrite (value bit bitvalue : Nat) : Nat :=
  if bitvalue ≠ 0 then bitSet value bit else bitClear value bit

/-- The three calls `shiftOut` makes for the bit at position `7 - i`: drive the
data pin with the bit, then pulse the clock pin high and low. -/
def shiftOutBit (dataPin clockPin val i : Nat) : List Event :=
  [Event.digitalWrite dataPin ((val >>> (7 - i)) &&& 1),
   Event.digitalWrite clockPin HIGH,
   Event.digitalWrite clockPin LOW]

/-- Modelled from the spec: the Arduino core function
`shiftOut(dataPin, clockPin, MSBFIRST, val)` (wiring_shift.c is not under
src/): for `i = 0 .. 7` it writes bit `7 - i` of `val` to the data pin and
toggles the clock pin once, so the 8 bits leave most-significant-bit first. -/
def shiftOut (dataPin clockPin val : Nat) : List Event :=
  (List.range 8).flatMap (shiftOutBit dataPin clockPin val)

end Arduino

open Arduino

/-! ## Register addresses and decode modes (`ICMIMax7219.h`, `Max7219.cpp`) -/

def REG_DECODE_MODE : Nat := 0x09
def REG_INTENSITY : Nat := 0x0A
def REG_SCAN_LIMIT : Nat := 0x0B
def REG_SHUTDOWN : Nat := 0x0C
def REG_DISPLAY_TEST : Nat := 0x0F
def DECODE_CODEB_NONE : Nat := 0

/-! ## The translating variant, `ICMIMax7219.cpp` -/

namespace ICMIMax7219

/-- The object of class `ICMIMax7219` (four `uint8_t` fields) together with
the trace of Arduino calls made so far and the ghost log of `writeRegister`
calls (address, value), both oldest first. -/
structure Driver where
  dataPin : Nat
  clockPin : Nat
  loadPin : Nat
  digitCount : Nat
  events : List Event
  writes : List (Nat × Nat)
  deriving DecidableEq, Repr

/-- Append calls to the Arduino core to the trace. -/
def emit (s : Driver) (es : List Event) : Driver :=
  { s with events := s.events ++ es }

/-- `ICMIMax7219::writeRegister(uint8_t which, uint8_t value)`. -/
def writeRegister (s : Driver) (which value : Nat) : Driver :=
  { s with
    events := s.events ++
      ([Event.digitalWrite s.loadPin LOW,
        Event.delayMicroseconds 5] ++
       shiftOut s.dataPin s.clockPin which ++
       shiftOut s.dataPin s.clockPin value ++
       [Event.delayMicroseconds 5,
        Event.digitalWrite s.loadPin HIGH]),
    writes := s.writes ++ [(which, value)] }

/-- `ICMIMax7219::writeBoolRegister(uint8_t which, boolean value)`. -/
def writeBoolRegister (s : Driver) (which : Nat) (value : Bool) : Driver :=
  if value then writeRegister s which 1 else writeRegister s which 0

/-- `ICMIMax7219::enable(boolean enable)`. -/
def enable (s : Driver) (enable : Bool) : Driver :=
  writeBoolRegister s REG_SHUTDOWN enable

/-- `ICMIMax7219::setIntensity(uint8_t level)`. -/
def setIntensity (s : Driver) (level : Nat) : Driver :=
  let newLevel : Nat :=
    if level > 16 then 15
    else if level > 0 then (level - 1) % 256
    else 0
  writeRegister s REG_INTENSITY newLevel

/-- `ICMIMax7219::testDisplay(boolean testDisplay)`. -/
def testDisplay (s : Driver) (testDisplay : Bool) : Driver :=
  writeBoolRegister s REG_DISPLAY_TEST testDisplay

/-- The bit translation in the body of `ICMIMax7219::setDigitRaw`: six
`bitWrite` calls on a copy of `value`, each reading from `value` itself. -/
def translate (value : Nat) : Nat :=
  let translatedValue := value
  let translatedValue := bitWrite translatedValue 6 (bitRead value 0)
  let translatedValue := bitWrite translatedValue 5 (bitRead value 1)
  let translatedValue := bitWrite translatedValue 4 (bitRead value 2)
  let translatedValue := bitWrite translatedValue 2 (bitRead value 4)
  let translatedValue := bitWrite translatedValue 1 (bitRead value 5)
  let translatedValue := bitWrite translatedValue 0 (bitRead value 6)
  translatedValue

/-- `ICMIMax7219::setDigitRaw(uint8_t which, uint8_t value)`; `which + 1` is
computed as an `int` and converted to `uint8_t` at the call. -/
def setDigitRaw (s : Driver) (which value : Nat) : Driver :=
  if 0 ≤ which ∧ which < s.digitCount then
    writeRegister s ((which + 1) % 256) (translate value)
  else s

/-- `ICMIMax7219::setRow(uint8_t which, uint8_t value)`. -/
def setRow (s : Driver) (which value : Nat) : Driver :=
  setDigitRaw s which value

/-- `ICMIMax7219::clearDisplay()`: the loop `for (int i = 1; i < 9; i++)`. -/
def clearDisplay (s : Driver) : Driver :=
  (List.range' 1 8).foldl (fun st i => writeRegister st (i % 256) 0) s

/-- `ICMIMax7219::begin(dataPin, clockPin, loadPin, digitCount)`. -/
def begin (s : Driver) (dataPin clockPin loadPin digitCount : Nat) : Driver :=
  let s := { s with dataPin := dataPin, clockPin := clockPin,
                    loadPin := loadPin, digitCount := digitCount }
  let s := emit s [Event.pinMode s.dataPin OUTPUT]
  let s := emit s [Event.pinMode s.clockPin OUTPUT]
  let s := emit s [Event.pinMode s.loadPin OUTPUT]
  let s := emit s [Event.digitalWrite loadPin HIGH]
  let s := testDisplay s false
  let s := writeRegister s REG_DECODE_MODE DECODE_CODEB_NONE
  let s := setIntensity s 16
  let s :=
    if digitCount > 4 then writeRegister s REG_SCAN_LIMIT ((digitCount - 1) % 256)
    else writeRegister s REG_SCAN_LIMIT 3
  let s := clearDisplay s
  enable s false

/-- `ICMIMax7219::version()`. -/
def version : Nat := 2

end ICMIMax7219

/-! ## The plain variant, `Max7219.cpp`

Parameters and fields are C++ `int`s, modelled as mathematical integers: the
only arithmetic (`which + 1`, `digitCount - 1`, `level - 1`) is guarded so that
it cannot overflow an `int` of any width.  The conversion to `uint8_t` happens
where a value is handed to the Arduino core.  (`Max7219.h` declares the public
methods with `uint8_t` parameters; the definitions in `Max7219.cpp`, which are
the ones embedded here, take `int`, and a byte is an `int` in 0..255.) -/

namespace Max7219

/-- The object of class `Max7219` (four `int` fields) together with the trace
of Arduino calls made so far and the ghost log of `writeRegister` calls
(address, value) with the `int` arguments as passed, both oldest first. -/
structure Driver where
  dataPin : Int
  clockPin : Int
  loadPin : Int
  digitCount : Int
  events : List Event
  writes : List (Int × Int)
  deriving DecidableEq, Repr

/-- Append calls to the Arduino core to the trace. -/
def emit (s : Driver) (es : List Event) : Driver :=
  { s with events := s.events ++ es }

/-- `Max7219::writeRegister(int which, int value)`. -/
def writeRegister (s : Driver) (which value : Int) : Driver :=
  { s with
    events := s.events ++
      ([Event.digitalWrite (toByte s.loadPin) LOW,
        Event.delayMicroseconds 5] ++
       shiftOut (toByte s.dataPin) (toByte s.clockPin) (toByte which) ++
       shiftOut (toByte s.dataPin) (toByte s.clockPin) (toByte value) ++
       [Event.delayMicroseconds 5,
        Event.digitalWrite (toByte s.loadPin) HIGH]),
    writes := s.writes ++ [(which, value)] }

/-- `Max7219::writeBoolRegister(int which, boolean value)`. -/
def writeBoolRegister (s : Driver) (which : Int) (value : Bool) : Driver :=
  if value then writeRegister s which 1 else writeRegister s which 0

/-- `Max7219::enable(boolean enable)`. -/
def enable (s : Driver) (enable : Bool) : Driver :=
  writeBoolRegister s REG_SHUTDOWN enable

/-- `Max7219::setIntensity(int level)`; `newLevel` is a `byte`. -/
def setIntensity (s : Driver) (level : Int) : Driver :=
  let newLevel : Nat :=
    if level > 16 then 15
    else if level > 0 then toByte (level - 1)
    else 0
  writeRegister s REG_INTENSITY newLevel

/-- `Max7219::testDisplay(boolean testDisplay)`. -/
def testDisplay (s : Driver) (testDisplay : Bool) : Driver :=
  writeBoolRegister s REG_DISPLAY_TEST testDisplay

/-- `Max7219::setDigitRaw(int which, int value)`. -/
def setDigitRaw (s : Driver) (which value : Int) : Driver :=
  if which ≥ 0 ∧ which < s.digitCount then
    writeRegister s (which + 1) value
  else s

/-- `Max7219::clearDisplay()`: the loop `for (int i = 1; i < 9; i++)`. -/
def clearDisplay (s : Driver) : Driver :=
  (List.range' 1 8).foldl (fun (st : Driver) (i : Nat) => writeRegister st (i : Int) 0) s

set_option linter.dupNamespace false in
/-- The constructor `Max7219::Max7219(dataPin, clockPin, loadPin, digitCount)`,
run on an object `s` whose fields are yet arbitrary. -/
def Max7219 (s : Driver) (dataPin clockPin loadPin digitCount : Int) : Driver :=
  let s := { s with dataPin := dataPin, clockPin := clockPin,
                    loadPin := loadPin, digitCount := digitCount }
  let s := emit s [Event.pinMode (toByte s.dataPin) OUTPUT]
  let s := emit s [Event.pinMode (toByte s.clockPin) OUTPUT]
  let s := emit s [Event.pinMode (toByte s.loadPin) OUTPUT]
  let s := emit s [Event.digitalWrite (toByte loadPin) HIGH]
  let s := testDisplay s false
  let s := writeRegister s REG_DECODE_MODE DECODE_CODEB_NONE
  let s :=
    if digitCount > 4 then writeRegister s REG_SCAN_LIMIT (digitCount - 1)
    else writeRegister s REG_SCAN_LIMIT 3
  let s := clearDisplay s
  enable s false

/-- `Max7219::version()`. -/
def version : Int := 1

end Max7219

/-! ## Vocabulary of the specification -/

/-- The spec's `clamp(x, lo, hi)`: `lo` below the range, `hi` above it. -/
def clamp (x lo hi : Int) : Int :=
  if x < lo then lo else if x > hi then hi else x

/-- One data bit on the wire as the spec describes it: the data pin is driven
with bit `i` of `frame`, then the clock pin is pulsed once. -/
def clockedBit (dataPin clockPin frame i : Nat) : List Event :=
  [Event.digitalWrite dataPin (if frame.testBit i then 1 else 0),
   Event.digitalWrite clockPin HIGH,
   Event.digitalWrite clockPin LOW]

/-- The spec's register-write protocol, written from its words: load pin low,
a wait of `t1` microseconds, the 16 bits of `address * 256 + value` from bit 15
down to bit 0 with one clock pulse each, a wait of `t2` microseconds, load pin
high. -/
def protocolFrame (dataPin clockPin loadPin t1 t2 address value : Nat) : List Event :=
  [Event.digitalWrite loadPin LOW, Event.delayMicroseconds t1] ++
  (List.range 16).flatMap
    (fun i => clockedBit dataPin clockPin (address * 256 + value) (15 - i)) ++
  [Event.delayMicroseconds t2, Event.digitalWrite loadPin HIGH]

/-- Whether an event is a `digitalWrite` on the given pin. -/
def Arduino.Event.drives (pin : Nat) : Event → Bool
  | Event.digitalWrite p _ => p == pin
  | _ => false

/-- The spec's intensity mapping: register value 0 for `level <= 0`,
`level - 1` for `1 <= level <= 16`, and 15 for `level > 16`. -/
def intensityCode (level : Int) : Int :=
  if level ≤ 0 then 0 else if level ≤ 16 then level - 1 else 15

/-- The modelled chip register file: the last value written to `address` in a
log of register writes, if there is one. -/
def regFile (log : List (Nat × Nat)) (address : Nat) : Option Nat :=
  (log.reverse.find? (fun w => w.1 == address)).map (fun w => w.2)

/-- The number of lit segments of a digit byte: the set bits among bits 0..7. -/
def litSegments (v : Nat) : Nat :=
  ((List.range 8).filter (fun i => v.testBit i)).length

/-- The frames of a list of register writes (address, value) on given pins, one
complete protocol frame per write, in order. -/
def frames (dataPin clockPin loadPin : Nat) (ws : List (Nat × Nat)) : List Event :=
  ws.flatMap (fun w => protocolFrame dataPin clockPin loadPin 5 5 w.1 w.2)

/-- The level last driven on `pin` in a trace: the value of the latest
`digitalWrite` on that pin, if there is one. -/
def lastLevel (pin : Nat) (events : List Event) : Option Nat :=
  events.reverse.findSome? (fun e =>
    match e with
    | Event.digitalWrite p v => if p = pin then some v else none
    | _ => none)

namespace ICMIMax7219

/-- A call of one of the public operations of `ICMIMax7219` other than `begin`,
with its arguments. -/
inductive Op where
  | enable (flag : Bool)
  | setIntensity (level : Nat)
  | testDisplay (flag : Bool)
  | setDigitRaw (which value : Nat)
  | setRow (which value : Nat)
  | clearDisplay
  deriving DecidableEq, Repr

/-- Run one public operation on a driver. -/
def Op.run (s : Driver) : Op → Driver
  | Op.enable flag => ICMIMax7219.enable s flag
  | Op.setIntensity level => ICMIMax7219.setIntensity s level
  | Op.testDisplay flag => ICMIMax7219.testDisplay s flag
  | Op.setDigitRaw which value => ICMIMax7219.setDigitRaw s which value
  | Op.setRow which value => ICMIMax7219.setRow s which value
  | Op.clearDisplay => ICMIMax7219.clearDisplay s

/-- Run a sequence of public operations, first to last. -/
def runAll (s : Driver) (ops : List Op) : Driver :=
  ops.foldl Op.run s

end ICMIMax7219

/-! ## Shared lemmas -/

set_option maxRecDepth 100000 in
theorem ICMIMax7219.translate_bits : ∀ v, v < 256 →
    ICMIMax7219.translate v < 256 ∧
    (∀ i, i < 7 → (ICMIMax7219.translate v).testBit (6 - i) = v.testBit i) ∧
    (ICMIMax7219.translate v).testBit 7 = v.testBit 7 := by
  decide

theorem Arduino.toByte_of_byte (x : Int) (h0 : 0 ≤ x) (h1 : x < 256) :
    toByte x = x.toNat := by
  unfold toByte
  rw [Int.emod_eq_of_lt h0 h1]

theorem Arduino.toByte_natCast (n : Nat) (h : n < 256) : toByte (n : Int) = n := by
  unfold toByte
  omega

/-- The bits `shiftOut` sends for two bytes are the 16 bits of the combined
frame, bit 15 first. -/
theorem Arduino.shiftOut_pair (d c a v : Nat) (hv : v < 256) :
    shiftOut d c a ++ shiftOut d c v =
      (List.range 16).flatMap (fun i => clockedBit d c (a * 256 + v) (15 - i)) := by
  have hbit : ∀ x k : Nat, (if x.testBit k then 1 else 0) = (x >>> k) &&& 1 := by
    intro x k
    rw [Nat.testBit, Nat.and_comm 1, Nat.and_one_is_mod]
    have := Nat.mod_two_eq_zero_or_one (x >>> k)
    rcases this with h | h <;> simp [h]
  simp only [shiftOut, clockedBit, hbit]
  simp only [List.range, List.range.loop, List.flatMap, List.map, List.flatten,
    List.append_nil, List.cons_append, List.nil_append, shiftOutBit]
  simp only [Nat.shiftRight_eq_div_pow, Nat.and_one_is_mod, List.cons.injEq,
    Event.digitalWrite.injEq, true_and, and_true]
  refine ⟨?_, ?_, ?_, ?_, ?_, ?_, ?_, ?_, ?_, ?_, ?_, ?_, ?_, ?_, ?_, ?_⟩ <;> omega

theorem ICMIMax7219.writeRegister_events (s : ICMIMax7219.Driver) (a v : Nat)
    (hv : v < 256) :
    (ICMIMax7219.writeRegister s a v).events =
      s.events ++ protocolFrame s.dataPin s.clockPin s.loadPin 5 5 a v := by
  simp only [ICMIMax7219.writeRegister, protocolFrame, ← Arduino.shiftOut_pair _ _ a v hv,
    List.append_assoc]

theorem Max7219.plain_writeRegister_events (s : Max7219.Driver) (a v : Int)
    (ha0 : 0 ≤ a) (ha : a < 256) (hv0 : 0 ≤ v) (hv : v < 256) :
    (Max7219.writeRegister s a v).events =
      s.events ++ protocolFrame (toByte s.dataPin) (toByte s.clockPin) (toByte s.loadPin)
        5 5 a.toNat v.toNat := by
  have h2 : v.toNat < 256 := by omega
  simp only [Max7219.writeRegister, protocolFrame,
    ← Arduino.shiftOut_pair _ _ a.toNat v.toNat h2, List.append_assoc,
    Arduino.toByte_of_byte a ha0 ha, Arduino.toByte_of_byte v hv0 hv]

theorem ICMIMax7219.writeRegister_eq (s : ICMIMax7219.Driver) (a v : Nat) (hv : v < 256) :
    ICMIMax7219.writeRegister s a v =
      { s with
        events := s.events ++ protocolFrame s.dataPin s.clockPin s.loadPin 5 5 a v,
        writes := s.writes ++ [(a, v)] } := by
  rw [← ICMIMax7219.writeRegister_events s a v hv]
  rfl

theorem Max7219.plain_writeRegister_eq (s : Max7219.Driver) (a v : Int)
    (hv0 : 0 ≤ v) (hv : v < 256) :
    Max7219.writeRegister s a v =
      { s with
        events := s.events ++
          protocolFrame (toByte s.dataPin) (toByte s.clockPin) (toByte s.loadPin) 5 5
            (toByte a) v.toNat,
        writes := s.writes ++ [(a, v)] } := by
  have h2 : v.toNat < 256 := by omega
  simp only [Max7219.writeRegister, protocolFrame,
    ← Arduino.shiftOut_pair _ _ (toByte a) v.toNat h2, List.append_assoc,
    Arduino.toByte_of_byte v hv0 hv]

theorem ICMIMax7219.foldl_writeRegister_zero (L : List Nat) (s : ICMIMax7219.Driver) :
    L.foldl (fun st i => ICMIMax7219.writeRegister st (i % 256) 0) s =
      { s with
        events := s.events ++
          L.flatMap (fun a => protocolFrame s.dataPin s.clockPin s.loadPin 5 5 (a % 256) 0),
        writes := s.writes ++ L.map (fun a => (a % 256, 0)) } := by
  induction L generalizing s with
  | nil => simp
  | cons a L ih =>
    rw [List.foldl_cons, ih, ICMIMax7219.writeRegister_eq _ _ _ (by decide)]
    simp [List.append_assoc]

theorem Max7219.plain_foldl_writeRegister_zero (L : List Nat) (s : Max7219.Driver) :
    L.foldl (fun (st : Max7219.Driver) (i : Nat) => Max7219.writeRegister st (i : Int) 0) s =
      { s with
        events := s.events ++
          L.flatMap (fun a => protocolFrame (toByte s.dataPin) (toByte s.clockPin)
            (toByte s.loadPin) 5 5 (toByte (a : Int)) 0),
        writes := s.writes ++ L.map (fun a => ((a : Int), (0 : Int))) } := by
  induction L generalizing s with
  | nil => simp
  | cons a L ih =>
    rw [List.foldl_cons, ih, Max7219.plain_writeRegister_eq _ _ _ (by decide) (by decide)]
    simp [List.append_assoc]

theorem ICMIMax7219.clearDisplay_eq (s : ICMIMax7219.Driver) :
    ICMIMax7219.clearDisplay s =
      { s with
        events := s.events ++
          (List.range' 1 8).flatMap (fun a => protocolFrame s.dataPin s.clockPin s.loadPin 5 5 a 0),
        writes := s.writes ++ (List.range' 1 8).map (fun a => (a, 0)) } := by
  rw [ICMIMax7219.clearDisplay, ICMIMax7219.foldl_writeRegister_zero]
  simp [List.range']

theorem Max7219.plain_clearDisplay_eq (s : Max7219.Driver) :
    Max7219.clearDisplay s =
      { s with
        events := s.events ++
          (List.range' 1 8).flatMap (fun a =>
            protocolFrame (toByte s.dataPin) (toByte s.clockPin) (toByte s.loadPin) 5 5 a 0),
        writes := s.writes ++ (List.range' 1 8).map (fun a => ((a : Int), (0 : Int))) } := by
  rw [Max7219.clearDisplay, Max7219.plain_foldl_writeRegister_zero]
  simp [List.range', toByte]

/-- The register writes of `ICMIMax7219::begin`, in order. -/
theorem ICMIMax7219.begin_writes (s : ICMIMax7219.Driver) (d c l n : Nat) :
    (ICMIMax7219.begin s d c l n).writes =
      s.writes ++ [(0x0F, 0), (0x09, 0), (0x0A, 15),
        (0x0B, if n > 4 then (n - 1) % 256 else 3),
        (1, 0), (2, 0), (3, 0), (4, 0), (5, 0), (6, 0), (7, 0), (8, 0), (0x0C, 0)] := by
  unfold ICMIMax7219.begin
  split_ifs <;>
  simp [ICMIMax7219.clearDisplay_eq, ICMIMax7219.emit, ICMIMax7219.testDisplay,
    ICMIMax7219.writeBoolRegister, ICMIMax7219.writeRegister, ICMIMax7219.setIntensity,
    ICMIMax7219.enable, List.range', REG_DISPLAY_TEST, REG_DECODE_MODE, DECODE_CODEB_NONE,
    REG_INTENSITY, REG_SCAN_LIMIT, REG_SHUTDOWN, *]

/-- The register writes of the constructor `Max7219::Max7219`, in order. -/
theorem Max7219.ctor_writes (s : Max7219.Driver) (d c l n : Int) :
    (Max7219.Max7219 s d c l n).writes =
      s.writes ++ [(0x0F, 0), (0x09, 0),
        (0x0B, if n > 4 then n - 1 else 3),
        (1, 0), (2, 0), (3, 0), (4, 0), (5, 0), (6, 0), (7, 0), (8, 0), (0x0C, 0)] := by
  unfold Max7219.Max7219
  split_ifs <;>
  simp [Max7219.plain_clearDisplay_eq, Max7219.emit, Max7219.testDisplay,
    Max7219.writeBoolRegister, Max7219.writeRegister,
    Max7219.enable, List.range', REG_DISPLAY_TEST, REG_DECODE_MODE, DECODE_CODEB_NONE,
    REG_SCAN_LIMIT, REG_SHUTDOWN, *]

theorem ICMIMax7219.begin_digitCount (s : ICMIMax7219.Driver) (d c l n : Nat) :
    (ICMIMax7219.begin s d c l n).digitCount = n := by
  unfold ICMIMax7219.begin
  split_ifs <;>
  simp [ICMIMax7219.clearDisplay_eq, ICMIMax7219.emit, ICMIMax7219.testDisplay,
    ICMIMax7219.writeBoolRegister, ICMIMax7219.writeRegister, ICMIMax7219.setIntensity,
    ICMIMax7219.enable]

theorem Max7219.ctor_digitCount (s : Max7219.Driver) (d c l n : Int) :
    (Max7219.Max7219 s d c l n).digitCount = n := by
  unfold Max7219.Max7219
  split_ifs <;>
  simp [Max7219.plain_clearDisplay_eq, Max7219.emit, Max7219.testDisplay,
    Max7219.writeBoolRegister, Max7219.writeRegister, Max7219.enable]

theorem getLast?_append_pair {α : Type} (xs : List α) (a b : α) :
    (xs ++ [a, b]).getLast? = some b := by
  have h : xs ++ [a, b] = (xs ++ [a]) ++ [b] := by simp
  rw [h, List.getLast?_concat]

theorem ICMIMax7219.translate_lt (v : Nat) : ICMIMax7219.translate v < 256 := by
  unfold ICMIMax7219.translate
  simp only [bitWrite]
  split_ifs <;> first | exact Nat.mod_lt _ (by decide)

theorem ICMIMax7219.writeRegister_ends_high (s : ICMIMax7219.Driver) (a v : Nat) :
    (ICMIMax7219.writeRegister s a v).events.getLast? =
      some (Event.digitalWrite (ICMIMax7219.writeRegister s a v).loadPin HIGH) := by
  simp only [ICMIMax7219.writeRegister, ← List.append_assoc]
  exact getLast?_append_pair _ _ _

theorem ICMIMax7219.begin_loadPin (s : ICMIMax7219.Driver) (d c l n : Nat) :
    (ICMIMax7219.begin s d c l n).loadPin = l := by
  unfold ICMIMax7219.begin
  split_ifs <;>
  simp [ICMIMax7219.clearDisplay_eq, ICMIMax7219.emit, ICMIMax7219.testDisplay,
    ICMIMax7219.writeBoolRegister, ICMIMax7219.writeRegister, ICMIMax7219.setIntensity,
    ICMIMax7219.enable]

theorem ICMIMax7219.begin_ends_high (s : ICMIMax7219.Driver) (d c l n : Nat) :
    (ICMIMax7219.begin s d c l n).events.getLast? = some (Event.digitalWrite l HIGH) := by
  have h := ICMIMax7219.begin_loadPin s d c l n
  unfold ICMIMax7219.begin at h ⊢
  simp only [ICMIMax7219.enable, ICMIMax7219.writeBoolRegister, Bool.false_eq_true,
    if_false] at h ⊢
  rw [ICMIMax7219.writeRegister_ends_high, h]

theorem frames_nil (d c l : Nat) : frames d c l [] = [] := rfl

theorem frames_append (d c l : Nat) (L M : List (Nat × Nat)) :
    frames d c l (L ++ M) = frames d c l L ++ frames d c l M := by
  simp [frames]

theorem frames_singleton (d c l a v : Nat) :
    frames d c l [(a, v)] = protocolFrame d c l 5 5 a v := by
  simp [frames]

theorem frames_ends_high (d c l : Nat) (L : List (Nat × Nat)) (hL : L ≠ []) :
    (frames d c l L).getLast? = some (Event.digitalWrite l HIGH) := by
  obtain ⟨M, w, rfl⟩ : ∃ M w, L = M ++ [w] :=
    ⟨L.dropLast, L.getLast hL, (List.dropLast_append_getLast hL).symm⟩
  rw [frames_append, frames_singleton, protocolFrame, ← List.append_assoc]
  exact getLast?_append_pair _ _ _

theorem lastLevel_of_getLast (pin v : Nat) (es : List Event)
    (h : es.getLast? = some (Event.digitalWrite pin v)) : lastLevel pin es = some v := by
  obtain ⟨pre, rfl⟩ : ∃ pre, es = pre ++ [Event.digitalWrite pin v] := by
    rcases List.eq_nil_or_concat es with h0 | ⟨pre, e, rfl⟩
    · subst h0
      simp at h
    · rw [List.concat_eq_append, List.getLast?_concat] at h
      exact ⟨pre, by rw [List.concat_eq_append, Option.some.inj h]⟩
  simp [lastLevel]

/-- Every public operation appends complete frames only: its Arduino calls are
the frames of the register writes it adds to the log, all of them bytes. -/
theorem ICMIMax7219.run_frames (t : ICMIMax7219.Driver) (op : ICMIMax7219.Op) :
    ∃ L : List (Nat × Nat), (∀ w ∈ L, w.1 < 256 ∧ w.2 < 256) ∧
      ICMIMax7219.Op.run t op =
        { t with
          events := t.events ++ frames t.dataPin t.clockPin t.loadPin L,
          writes := t.writes ++ L } := by
  have one : ∀ a v : Nat, a < 256 → v < 256 →
      ∃ L : List (Nat × Nat), (∀ w ∈ L, w.1 < 256 ∧ w.2 < 256) ∧
        ICMIMax7219.writeRegister t a v =
          { t with
            events := t.events ++ frames t.dataPin t.clockPin t.loadPin L,
            writes := t.writes ++ L } := by
    intro a v ha hv
    refine ⟨[(a, v)], ?_, ?_⟩
    · intro w hw
      rw [List.mem_singleton] at hw
      subst hw
      exact ⟨ha, hv⟩
    · rw [ICMIMax7219.writeRegister_eq t a v hv, frames_singleton]
  have none : ∃ L : List (Nat × Nat), (∀ w ∈ L, w.1 < 256 ∧ w.2 < 256) ∧
      t = { t with
            events := t.events ++ frames t.dataPin t.clockPin t.loadPin L,
            writes := t.writes ++ L } :=
    ⟨[], by simp, by simp [frames_nil]⟩
  cases op with
  | enable flag =>
    cases flag
    · exact one 0x0C 0 (by decide) (by decide)
    · exact one 0x0C 1 (by decide) (by decide)
  | setIntensity level =>
    refine one 0x0A _ (by decide) ?_
    split_ifs
    · decide
    · exact Nat.mod_lt _ (by decide)
    · decide
  | testDisplay flag =>
    cases flag
    · exact one 0x0F 0 (by decide) (by decide)
    · exact one 0x0F 1 (by decide) (by decide)
  | setDigitRaw which value =>
    simp only [ICMIMax7219.Op.run, ICMIMax7219.setDigitRaw]
    split_ifs
    · exact one _ _ (Nat.mod_lt _ (by decide)) (ICMIMax7219.translate_lt value)
    · exact none
  | setRow which value =>
    simp only [ICMIMax7219.Op.run, ICMIMax7219.setRow, ICMIMax7219.setDigitRaw]
    split_ifs
    · exact one _ _ (Nat.mod_lt _ (by decide)) (ICMIMax7219.translate_lt value)
    · exact none
  | clearDisplay =>
    refine ⟨(List.range' 1 8).map (fun a => (a, 0)), by decide, ?_⟩
    simp only [ICMIMax7219.Op.run, ICMIMax7219.clearDisplay_eq, frames, List.flatMap_map]

theorem ICMIMax7219.run_ends_high (t : ICMIMax7219.Driver) (op : ICMIMax7219.Op) (l : Nat)
    (hl : t.loadPin = l) (h : t.events.getLast? = some (Event.digitalWrite l HIGH)) :
    (ICMIMax7219.Op.run t op).loadPin = l ∧
    (ICMIMax7219.Op.run t op).events.getLast? = some (Event.digitalWrite l HIGH) := by
  obtain ⟨L, -, hrun⟩ := ICMIMax7219.run_frames t op
  rw [hrun]
  refine ⟨hl, ?_⟩
  by_cases hL : L = []
  · subst hL
    simpa [frames_nil] using h
  · show (t.events ++ frames t.dataPin t.clockPin t.loadPin L).getLast? = _
    rw [List.getLast?_append, frames_ends_high _ _ _ L hL, hl]
    rfl

theorem ICMIMax7219.runAll_ends_high (ops : List ICMIMax7219.Op) (t : ICMIMax7219.Driver)
    (l : Nat) (hl : t.loadPin = l)
    (h : t.events.getLast? = some (Event.digitalWrite l HIGH)) :
    (ICMIMax7219.runAll t ops).loadPin = l ∧
    (ICMIMax7219.runAll t ops).events.getLast? = some (Event.digitalWrite l HIGH) := by
  induction ops generalizing t with
  | nil => exact ⟨hl, h⟩
  | cons op ops ih =>
    obtain ⟨h1, h2⟩ := ICMIMax7219.run_ends_high t op l hl h
    exact ih (ICMIMax7219.Op.run t op) h1 h2

theorem protocolFrame_length (d c l t1 t2 a v : Nat) :
    (protocolFrame d c l t1 t2 a v).length = 52 := by
  simp [protocolFrame, clockedBit, List.range, List.range.loop]

theorem frames_length (d c l : Nat) (L : List (Nat × Nat)) :
    (frames d c l L).length = L.length * 52 := by
  induction L with
  | nil => rfl
  | cons w L ih =>
    have h : frames d c l (w :: L) = protocolFrame d c l 5 5 w.1 w.2 ++ frames d c l L := by
      simp [frames]
    rw [h, List.length_append, ih, protocolFrame_length, List.length_cons]
    omega

/-- The Arduino calls of `ICMIMax7219::begin`: the three `pinMode` calls, load
pin HIGH, then the frames of its thirteen register writes. -/
theorem ICMIMax7219.begin_events (s : ICMIMax7219.Driver) (d c l n : Nat) :
    (ICMIMax7219.begin s d c l n).events =
      s.events ++
        [Event.pinMode d OUTPUT, Event.pinMode c OUTPUT, Event.pinMode l OUTPUT,
          Event.digitalWrite l HIGH] ++
        frames d c l [(0x0F, 0), (0x09, 0), (0x0A, 15),
          (0x0B, if n > 4 then (n - 1) % 256 else 3),
          (1, 0), (2, 0), (3, 0), (4, 0), (5, 0), (6, 0), (7, 0), (8, 0), (0x0C, 0)] := by
  have hm : (n - 1) % 256 < 256 := Nat.mod_lt _ (by decide)
  unfold ICMIMax7219.begin
  split_ifs <;>
  simp [ICMIMax7219.clearDisplay_eq, ICMIMax7219.emit, ICMIMax7219.testDisplay,
    ICMIMax7219.writeBoolRegister, ICMIMax7219.writeRegister_eq, ICMIMax7219.setIntensity,
    ICMIMax7219.enable, List.range', REG_DISPLAY_TEST, REG_DECODE_MODE, DECODE_CODEB_NONE,
    REG_INTENSITY, REG_SCAN_LIMIT, REG_SHUTDOWN, frames, hm, *]

/-- `Max7219::writeRegister` on the wire: one frame carrying the two arguments
reduced to bytes. -/
theorem Max7219.plain_writeRegister_wire (s : Max7219.Driver) (a v : Int) :
    Max7219.writeRegister s a v =
      { s with
        events := s.events ++
          protocolFrame (toByte s.dataPin) (toByte s.clockPin) (toByte s.loadPin) 5 5
            (toByte a) (toByte v),
        writes := s.writes ++ [(a, v)] } := by
  have h2 : toByte v < 256 := by
    unfold toByte
    omega
  simp only [Max7219.writeRegister, protocolFrame,
    ← Arduino.shiftOut_pair _ _ (toByte a) (toByte v) h2, List.append_assoc]

/-- The Arduino calls of the constructor `Max7219::Max7219`: the three
`pinMode` calls, load pin HIGH, then the frames of its twelve register
writes. -/
theorem Max7219.ctor_events (s : Max7219.Driver) (d c l n : Int) :
    (Max7219.Max7219 s d c l n).events =
      s.events ++
        [Event.pinMode (toByte d) OUTPUT, Event.pinMode (toByte c) OUTPUT,
          Event.pinMode (toByte l) OUTPUT, Event.digitalWrite (toByte l) HIGH] ++
        frames (toByte d) (toByte c) (toByte l) [(0x0F, 0), (0x09, 0),
          (0x0B, toByte (if n > 4 then n - 1 else 3)),
          (1, 0), (2, 0), (3, 0), (4, 0), (5, 0), (6, 0), (7, 0), (8, 0), (0x0C, 0)] := by
  have h3 : toByte 3 = 3 := by decide
  have h0 : toByte 0 = 0 := by decide
  have h9 : toByte 9 = 9 := by decide
  have h11 : toByte 11 = 11 := by decide
  have h12 : toByte 12 = 12 := by decide
  have h15 : toByte 15 = 15 := by decide
  unfold Max7219.Max7219
  split_ifs <;>
  simp [Max7219.plain_clearDisplay_eq, Max7219.emit, Max7219.testDisplay,
    Max7219.writeBoolRegister, Max7219.plain_writeRegister_wire,
    Max7219.enable, List.range', REG_DISPLAY_TEST, REG_DECODE_MODE, DECODE_CODEB_NONE,
    REG_SCAN_LIMIT, REG_SHUTDOWN, frames, h0, h3, h9, h11, h12, h15, *]

/-! ## The claims -/

/-- C1: in the translating variant, for every byte `v` the byte that
`setDigitRaw` passes to `writeRegister` and shifts out is `translate v`, a byte
whose bit `6 - i` is bit `i` of `v` for `i = 0 .. 6` and whose bit 7 is bit 7
of `v`; the input `0b01101101` is transmitted as `0b01011011`. -/
theorem C1_setDigitRaw_translation (s : ICMIMax7219.Driver) (which v : Nat)
    (hw : which < s.digitCount) (hv : v < 256) :
    (ICMIMax7219.setDigitRaw s which v).writes =
        s.writes ++ [((which + 1) % 256, ICMIMax7219.translate v)] ∧
    (ICMIMax7219.setDigitRaw s which v).events =
        s.events ++ protocolFrame s.dataPin s.clockPin s.loadPin 5 5
          ((which + 1) % 256) (ICMIMax7219.translate v) ∧
    ICMIMax7219.translate v < 256 ∧
    (∀ i, i < 7 → (ICMIMax7219.translate v).testBit (6 - i) = v.testBit i) ∧
    (ICMIMax7219.translate v).testBit 7 = v.testBit 7 ∧
    ICMIMax7219.translate 0b01101101 = 0b01011011 := by
  obtain ⟨hlt, hperm, hdp⟩ := ICMIMax7219.translate_bits v hv
  have hg : 0 ≤ which ∧ which < s.digitCount := ⟨Nat.zero_le _, hw⟩
  refine ⟨?_, ?_, hlt, hperm, hdp, by decide⟩
  · simp [ICMIMax7219.setDigitRaw, hg, ICMIMax7219.writeRegister]
  · rw [ICMIMax7219.setDigitRaw, if_pos hg, ICMIMax7219.writeRegister_events _ _ _ hlt]

/-- Witness of C1: digit 0 of a two-digit driver, value `0b01101101`. -/
theorem C1_setDigitRaw_translation_witness :
    (0 < 2 ∧ 0b01101101 < 256) ∧
    (ICMIMax7219.setDigitRaw ⟨2, 3, 4, 2, [], []⟩ 0 0b01101101).writes =
      [] ++ [((0 + 1) % 256, ICMIMax7219.translate 0b01101101)] :=
  ⟨by decide,
   (C1_setDigitRaw_translation ⟨2, 3, 4, 2, [], []⟩ 0 0b01101101 (by decide) (by decide)).1⟩

/-- C3: for a driver with stored digit count `n` and an index outside
`[0, n-1]`, `setDigitRaw` and `setRow` return the driver as it was: no register
write, no call to the Arduino core, no field changed, whatever the value. -/
theorem C3_setDigitRaw_out_of_range (s : ICMIMax7219.Driver) (p : Max7219.Driver)
    (which value : Nat) (w x : Int)
    (hw : ¬ which < s.digitCount) (hp : w < 0 ∨ p.digitCount ≤ w) :
    ICMIMax7219.setDigitRaw s which value = s ∧
    ICMIMax7219.setRow s which value = s ∧
    Max7219.setDigitRaw p w x = p := by
  have hg : ¬ (0 ≤ which ∧ which < s.digitCount) := fun h => hw h.2
  have hgp : ¬ (w ≥ 0 ∧ w < p.digitCount) := by omega
  refine ⟨?_, ?_, ?_⟩
  · rw [ICMIMax7219.setDigitRaw, if_neg hg]
  · rw [ICMIMax7219.setRow, ICMIMax7219.setDigitRaw, if_neg hg]
  · rw [Max7219.setDigitRaw, if_neg hgp]

/-- Witness of C3: index 2 of a two-digit driver, and index -1 in the plain
variant. -/
theorem C3_setDigitRaw_out_of_range_witness :
    ICMIMax7219.setDigitRaw ⟨2, 3, 4, 2, [], []⟩ 2 0xFF = ⟨2, 3, 4, 2, [], []⟩ ∧
    ICMIMax7219.setRow ⟨2, 3, 4, 2, [], []⟩ 2 0xFF = ⟨2, 3, 4, 2, [], []⟩ ∧
    Max7219.setDigitRaw ⟨2, 3, 4, 2, [], []⟩ (-1) 0xFF = ⟨2, 3, 4, 2, [], []⟩ :=
  C3_setDigitRaw_out_of_range ⟨2, 3, 4, 2, [], []⟩ ⟨2, 3, 4, 2, [], []⟩ 2 0xFF (-1) 0xFF
    (by decide) (by decide)

/-- C4: `setIntensity(level)` is exactly one `writeRegister` call, to the
intensity register 0x0A, with value 0 for `level <= 0`, `level - 1` for
`1 <= level <= 16` and 15 for `level > 16`; the value lies in 0..15, level 0
behaves as level 1 and every level above 16 as level 16 (both variants). -/
theorem C4_setIntensity (s : ICMIMax7219.Driver) (p : Max7219.Driver)
    (level : Nat) (l : Int) :
    (ICMIMax7219.setIntensity s level).writes =
        s.writes ++ [(0x0A, (intensityCode level).toNat)] ∧
    (ICMIMax7219.setIntensity s level).events =
        s.events ++ protocolFrame s.dataPin s.clockPin s.loadPin 5 5 0x0A
          (intensityCode level).toNat ∧
    (Max7219.setIntensity p l).writes = p.writes ++ [(0x0A, intensityCode l)] ∧
    (Max7219.setIntensity p l).events =
        p.events ++ protocolFrame (toByte p.dataPin) (toByte p.clockPin) (toByte p.loadPin)
          5 5 0x0A (intensityCode l).toNat ∧
    (0 ≤ intensityCode l ∧ intensityCode l ≤ 15) ∧
    ICMIMax7219.setIntensity s 0 = ICMIMax7219.setIntensity s 1 ∧
    Max7219.setIntensity p 0 = Max7219.setIntensity p 1 ∧
    ICMIMax7219.setIntensity s (level + 17) = ICMIMax7219.setIntensity s 16 ∧
    Max7219.setIntensity p (l.toNat + 17) = Max7219.setIntensity p 16 := by
  have icmi : ∀ n : Nat, (if n > 16 then 15 else if n > 0 then (n - 1) % 256 else 0) =
      (intensityCode n).toNat := by
    intro n
    unfold intensityCode
    split_ifs <;> omega
  have plain : ∀ z : Int, ((if z > 16 then 15 else if z > 0 then toByte (z - 1) else 0 : Nat) : Int) =
      intensityCode z := by
    intro z
    unfold intensityCode toByte
    split_ifs <;> omega
  have hs : ∀ n : Nat, ICMIMax7219.setIntensity s n =
      ICMIMax7219.writeRegister s 0x0A (intensityCode n).toNat := by
    intro n
    simp only [ICMIMax7219.setIntensity, icmi, REG_INTENSITY]
  have hp : ∀ z : Int, Max7219.setIntensity p z =
      Max7219.writeRegister p 0x0A (intensityCode z) := by
    intro z
    simp only [Max7219.setIntensity, plain, REG_INTENSITY, Nat.cast_ofNat]
  have hc : ∀ z : Int, 0 ≤ intensityCode z ∧ intensityCode z ≤ 15 := by
    intro z
    unfold intensityCode
    split_ifs <;> omega
  have hlt : (intensityCode level).toNat < 256 := by
    have := hc level
    omega
  have h17 : ∀ z : Int, 16 < z → intensityCode z = 15 := by
    intro z hz
    unfold intensityCode
    split_ifs <;> omega
  refine ⟨?_, ?_, ?_, ?_, hc l, ?_, ?_, ?_, ?_⟩
  · rw [hs]; rfl
  · rw [hs, ICMIMax7219.writeRegister_events _ _ _ hlt]
  · rw [hp]; rfl
  · rw [hp, Max7219.plain_writeRegister_events _ _ _ (by decide) (by decide) (hc l).1
      (by have := (hc l).2; omega)]
    rfl
  · rfl
  · rfl
  · rw [hs, hs, h17 _ (by push_cast; omega)]
    rfl
  · rw [hp, hp, h17 _ (by omega)]
    rfl

/-- C5 (evaluation of the code): `begin` and the `Max7219` constructor store
the `digitCount` argument as it is; at 99, 0 and -10 the stored count is 99, 0
and -10, where `clamp(digitCount, 1, 8)` is 8, 1 and 1. -/
theorem C5_digitCount_stored_unclamped :
    (ICMIMax7219.begin ⟨0, 0, 0, 0, [], []⟩ 2 3 4 99).digitCount = 99 ∧
    (ICMIMax7219.begin ⟨0, 0, 0, 0, [], []⟩ 2 3 4 0).digitCount = 0 ∧
    (Max7219.Max7219 ⟨0, 0, 0, 0, [], []⟩ 2 3 4 99).digitCount = 99 ∧
    (Max7219.Max7219 ⟨0, 0, 0, 0, [], []⟩ 2 3 4 (-10)).digitCount = -10 ∧
    clamp 99 1 8 = 8 ∧ clamp 0 1 8 = 1 ∧ clamp (-10) 1 8 = 1 := by
  refine ⟨ICMIMax7219.begin_digitCount _ _ _ _ _, ICMIMax7219.begin_digitCount _ _ _ _ _,
    Max7219.ctor_digitCount _ _ _ _ _, Max7219.ctor_digitCount _ _ _ _ _, ?_, ?_, ?_⟩ <;>
  decide

/-- C6: for `digitCount` in 1..8 and any pins, initialization (`begin` in the
translating variant, the constructor in the plain one) emits, after the three
`pinMode` calls and load pin HIGH, exactly the frames of the register writes it
adds to the log, and among these writes there is exactly one to the scan-limit
register 0x0B, with value `max(digitCount, 4) - 1`. -/
theorem C6_scan_limit (s : ICMIMax7219.Driver) (p : Max7219.Driver)
    (d c l n : Nat) (pd pc pl : Int) (h1 : 1 ≤ n) (h8 : n ≤ 8) :
    (ICMIMax7219.begin s d c l n).writes.take s.writes.length = s.writes ∧
    ((ICMIMax7219.begin s d c l n).writes.drop s.writes.length).filter
        (fun w => w.1 == REG_SCAN_LIMIT) = [(0x0B, max n 4 - 1)] ∧
    (Max7219.Max7219 p pd pc pl n).writes.take p.writes.length = p.writes ∧
    ((Max7219.Max7219 p pd pc pl n).writes.drop p.writes.length).filter
        (fun w => w.1 == (REG_SCAN_LIMIT : Int)) = [(0x0B, ((max n 4 - 1 : Nat) : Int))] ∧
    (ICMIMax7219.begin s d c l n).events =
      s.events ++
        [Event.pinMode d OUTPUT, Event.pinMode c OUTPUT, Event.pinMode l OUTPUT,
          Event.digitalWrite l HIGH] ++
        frames d c l ((ICMIMax7219.begin s d c l n).writes.drop s.writes.length) ∧
    (Max7219.Max7219 p pd pc pl n).events =
      p.events ++
        [Event.pinMode (toByte pd) OUTPUT, Event.pinMode (toByte pc) OUTPUT,
          Event.pinMode (toByte pl) OUTPUT, Event.digitalWrite (toByte pl) HIGH] ++
        frames (toByte pd) (toByte pc) (toByte pl)
          (((Max7219.Max7219 p pd pc pl n).writes.drop p.writes.length).map
            (fun w => (toByte w.1, toByte w.2))) ∧
    (frames d c l ((ICMIMax7219.begin s d c l n).writes.drop s.writes.length)).length =
      13 * 52 ∧
    (frames (toByte pd) (toByte pc) (toByte pl)
      (((Max7219.Max7219 p pd pc pl n).writes.drop p.writes.length).map
        (fun w => (toByte w.1, toByte w.2)))).length = 12 * 52 := by
  rw [ICMIMax7219.begin_events, Max7219.ctor_events, ICMIMax7219.begin_writes,
    Max7219.ctor_writes]
  simp only [List.take_left, List.drop_left, REG_SCAN_LIMIT, true_and]
  refine ⟨?_, ?_, ?_, ?_, ?_⟩
  · interval_cases n <;> decide
  · interval_cases n <;> decide
  · interval_cases n <;> rfl
  · rw [frames_length]
    rfl
  · rw [frames_length]
    rfl

/-- Witness of C6: `digitCount = 6` programs 5 and `digitCount = 2` programs
3, in both variants, and the calls made are the frames of the writes. -/
theorem C6_scan_limit_witness :
    (((ICMIMax7219.begin ⟨0, 0, 0, 0, [], []⟩ 2 3 4 6).writes.drop 0).filter
        (fun w => w.1 == REG_SCAN_LIMIT) = [(0x0B, max 6 4 - 1)] ∧
     ((Max7219.Max7219 ⟨0, 0, 0, 0, [], []⟩ 2 3 4 (6 : Nat)).writes.drop 0).filter
        (fun w => w.1 == (REG_SCAN_LIMIT : Int)) = [(0x0B, ((max 6 4 - 1 : Nat) : Int))] ∧
     (ICMIMax7219.begin ⟨0, 0, 0, 0, [], []⟩ 2 3 4 6).events =
       [] ++
         [Event.pinMode 2 OUTPUT, Event.pinMode 3 OUTPUT, Event.pinMode 4 OUTPUT,
           Event.digitalWrite 4 HIGH] ++
         frames 2 3 4 ((ICMIMax7219.begin ⟨0, 0, 0, 0, [], []⟩ 2 3 4 6).writes.drop 0)) ∧
    (((ICMIMax7219.begin ⟨0, 0, 0, 0, [], []⟩ 2 3 4 2).writes.drop 0).filter
        (fun w => w.1 == REG_SCAN_LIMIT) = [(0x0B, max 2 4 - 1)] ∧
     ((Max7219.Max7219 ⟨0, 0, 0, 0, [], []⟩ 2 3 4 (2 : Nat)).writes.drop 0).filter
        (fun w => w.1 == (REG_SCAN_LIMIT : Int)) = [(0x0B, ((max 2 4 - 1 : Nat) : Int))]) :=
  have h6 := C6_scan_limit ⟨0, 0, 0, 0, [], []⟩ ⟨0, 0, 0, 0, [], []⟩ 2 3 4 6 2 3 4
    (by decide) (by decide)
  have h2 := C6_scan_limit ⟨0, 0, 0, 0, [], []⟩ ⟨0, 0, 0, 0, [], []⟩ 2 3 4 2 2 3 4
    (by decide) (by decide)
  ⟨⟨h6.2.1, h6.2.2.2.1, h6.2.2.2.2.1⟩, ⟨h2.2.1, h2.2.2.2.1⟩⟩

/-- C7: for `digitCount` in 1..8 and any pins, `ICMIMax7219::begin` makes the
three `pinMode` calls, drives the load pin HIGH and then sends exactly thirteen
frames: display-test 0x0F = 0, decode-mode 0x09 = 0, intensity 0x0A = 15,
scan-limit 0x0B = `max(digitCount, 4) - 1`, the digit registers 0x01..0x08 = 0
and, last, shutdown 0x0C = 0.  The modelled register file (last value written
per address, over the whole log) therefore holds these values; `begin` never
writes 1 to the shutdown register and its last register write, also the last
frame on the wire, is shutdown = 0. -/
theorem C7_begin_register_file (s : ICMIMax7219.Driver) (d c l n : Nat)
    (h1 : 1 ≤ n) (h8 : n ≤ 8) :
    regFile (ICMIMax7219.begin s d c l n).writes 0x0F = some 0 ∧
    regFile (ICMIMax7219.begin s d c l n).writes 0x09 = some 0 ∧
    regFile (ICMIMax7219.begin s d c l n).writes 0x0A = some 15 ∧
    regFile (ICMIMax7219.begin s d c l n).writes 0x0B = some (max n 4 - 1) ∧
    (∀ a, 1 ≤ a → a ≤ 8 → regFile (ICMIMax7219.begin s d c l n).writes a = some 0) ∧
    regFile (ICMIMax7219.begin s d c l n).writes 0x0C = some 0 ∧
    (ICMIMax7219.begin s d c l n).writes.take s.writes.length = s.writes ∧
    (REG_SHUTDOWN, 1) ∉ (ICMIMax7219.begin s d c l n).writes.drop s.writes.length ∧
    ((ICMIMax7219.begin s d c l n).writes.drop s.writes.length).getLast? =
      some (REG_SHUTDOWN, 0) ∧
    (ICMIMax7219.begin s d c l n).writes =
      s.writes ++ [(0x0F, 0), (0x09, 0), (0x0A, 15), (0x0B, max n 4 - 1),
        (1, 0), (2, 0), (3, 0), (4, 0), (5, 0), (6, 0), (7, 0), (8, 0), (0x0C, 0)] ∧
    (ICMIMax7219.begin s d c l n).events =
      s.events ++
        [Event.pinMode d OUTPUT, Event.pinMode c OUTPUT, Event.pinMode l OUTPUT,
          Event.digitalWrite l HIGH] ++
        frames d c l [(0x0F, 0), (0x09, 0), (0x0A, 15), (0x0B, max n 4 - 1),
          (1, 0), (2, 0), (3, 0), (4, 0), (5, 0), (6, 0), (7, 0), (8, 0)] ++
        protocolFrame d c l 5 5 REG_SHUTDOWN 0 ∧
    (ICMIMax7219.begin s d c l n).events =
      s.events ++
        [Event.pinMode d OUTPUT, Event.pinMode c OUTPUT, Event.pinMode l OUTPUT,
          Event.digitalWrite l HIGH] ++
        frames d c l ((ICMIMax7219.begin s d c l n).writes.drop s.writes.length) := by
  have hval : (if n > 4 then (n - 1) % 256 else 3) = max n 4 - 1 := by
    interval_cases n <;> rfl
  rw [ICMIMax7219.begin_events, ICMIMax7219.begin_writes, hval]
  simp only [List.take_left, List.drop_left, REG_SHUTDOWN, regFile, List.reverse_append,
    List.find?_append, true_and]
  refine ⟨?_, ?_, ?_, ?_, ?_, ?_, ?_, ?_, ?_⟩
  · interval_cases n <;> rfl
  · interval_cases n <;> rfl
  · interval_cases n <;> rfl
  · interval_cases n <;> rfl
  · intro a ha1 ha8
    interval_cases n <;> interval_cases a <;> rfl
  · interval_cases n <;> rfl
  · interval_cases n <;> decide
  · interval_cases n <;> rfl
  · simp [frames, List.append_assoc]

/-- Witness of C7: a six-digit display on pins 2, 3, 4. -/
theorem C7_begin_register_file_witness :
    regFile (ICMIMax7219.begin ⟨0, 0, 0, 0, [], []⟩ 2 3 4 6).writes 0x0B = some (max 6 4 - 1) ∧
    regFile (ICMIMax7219.begin ⟨0, 0, 0, 0, [], []⟩ 2 3 4 6).writes 0x0C = some 0 ∧
    (ICMIMax7219.begin ⟨0, 0, 0, 0, [], []⟩ 2 3 4 6).events =
      [] ++
        [Event.pinMode 2 OUTPUT, Event.pinMode 3 OUTPUT, Event.pinMode 4 OUTPUT,
          Event.digitalWrite 4 HIGH] ++
        frames 2 3 4 [(0x0F, 0), (0x09, 0), (0x0A, 15), (0x0B, max 6 4 - 1),
          (1, 0), (2, 0), (3, 0), (4, 0), (5, 0), (6, 0), (7, 0), (8, 0)] ++
        protocolFrame 2 3 4 5 5 REG_SHUTDOWN 0 :=
  have h := C7_begin_register_file ⟨0, 0, 0, 0, [], []⟩ 2 3 4 6 (by decide) (by decide)
  ⟨h.2.2.2.1, h.2.2.2.2.2.1, h.2.2.2.2.2.2.2.2.2.2.1⟩

/-- C8: whatever the stored digit count, `clearDisplay()` adds exactly the 8
register writes (1,0), (2,0), ..., (8,0), in that order, to the log, the
Arduino calls it makes are exactly the 8 corresponding frames, and no field of
the driver changes (both variants). -/
theorem C8_clearDisplay (s : ICMIMax7219.Driver) (p : Max7219.Driver) :
    (ICMIMax7219.clearDisplay s).writes =
      s.writes ++ [(1, 0), (2, 0), (3, 0), (4, 0), (5, 0), (6, 0), (7, 0), (8, 0)] ∧
    (ICMIMax7219.clearDisplay s).events =
      s.events ++ [1, 2, 3, 4, 5, 6, 7, 8].flatMap
        (fun a => protocolFrame s.dataPin s.clockPin s.loadPin 5 5 a 0) ∧
    ((ICMIMax7219.clearDisplay s).dataPin = s.dataPin ∧
      (ICMIMax7219.clearDisplay s).clockPin = s.clockPin ∧
      (ICMIMax7219.clearDisplay s).loadPin = s.loadPin ∧
      (ICMIMax7219.clearDisplay s).digitCount = s.digitCount) ∧
    (Max7219.clearDisplay p).writes =
      p.writes ++ [(1, 0), (2, 0), (3, 0), (4, 0), (5, 0), (6, 0), (7, 0), (8, 0)] ∧
    (Max7219.clearDisplay p).events =
      p.events ++ [1, 2, 3, 4, 5, 6, 7, 8].flatMap
        (fun a => protocolFrame (toByte p.dataPin) (toByte p.clockPin) (toByte p.loadPin)
          5 5 a 0) ∧
    ((Max7219.clearDisplay p).dataPin = p.dataPin ∧
      (Max7219.clearDisplay p).clockPin = p.clockPin ∧
      (Max7219.clearDisplay p).loadPin = p.loadPin ∧
      (Max7219.clearDisplay p).digitCount = p.digitCount) := by
  rw [ICMIMax7219.clearDisplay_eq, Max7219.plain_clearDisplay_eq]
  simp [List.range']

/-- C9: for an address byte and a value byte, the Arduino calls of
`writeRegister(address, value)` are exactly the protocol frame: load pin LOW, a
delay of 5 microseconds, the 16 bits of `address * 256 + value` from bit 15
down to bit 0, each driven on the data pin and followed by one clock pulse, a
delay of 5 microseconds, load pin HIGH (both variants); the frame has 52 calls
and, when the load pin is neither the data pin nor the clock pin, the only
calls that drive the load pin are the first (LOW) and the last (HIGH). -/
theorem C9_writeRegister_protocol (s : ICMIMax7219.Driver) (p : Max7219.Driver)
    (address value : Nat) (ha : address < 256) (hv : value < 256) :
    (ICMIMax7219.writeRegister s address value).events =
      s.events ++ protocolFrame s.dataPin s.clockPin s.loadPin 5 5 address value ∧
    (Max7219.writeRegister p address value).events =
      p.events ++ protocolFrame (toByte p.dataPin) (toByte p.clockPin) (toByte p.loadPin)
        5 5 address value ∧
    address * 256 + value < 2 ^ 16 ∧
    (∀ dP cP lP : Nat, (protocolFrame dP cP lP 5 5 address value).length = 52 ∧
      (lP ≠ dP → lP ≠ cP →
        (protocolFrame dP cP lP 5 5 address value).filter (Event.drives lP) =
          [Event.digitalWrite lP LOW, Event.digitalWrite lP HIGH])) := by
  refine ⟨ICMIMax7219.writeRegister_events s address value hv, ?_, by omega, ?_⟩
  · rw [Max7219.plain_writeRegister_eq p address value (by omega) (by omega),
      Arduino.toByte_natCast address ha]
    rfl
  · intro dP cP lP
    constructor
    · simp [protocolFrame, clockedBit, List.range, List.range.loop]
    · intro hd hc
      have hd2 : (dP == lP) = false := by simpa using Ne.symm hd
      have hc2 : (cP == lP) = false := by simpa using Ne.symm hc
      simp [protocolFrame, clockedBit, List.range, List.range.loop, Event.drives, hd2, hc2]

/-- Witness of C9: register 0x0B, value 5, on pins 2 (data), 3 (clock) and 4
(load). -/
theorem C9_writeRegister_protocol_witness :
    (ICMIMax7219.writeRegister ⟨2, 3, 4, 6, [], []⟩ 0x0B 5).events =
      [] ++ protocolFrame 2 3 4 5 5 0x0B 5 ∧
    (protocolFrame 2 3 4 5 5 0x0B 5).filter (Event.drives 4) =
      [Event.digitalWrite 4 LOW, Event.digitalWrite 4 HIGH] :=
  have h := C9_writeRegister_protocol ⟨2, 3, 4, 6, [], []⟩ ⟨2, 3, 4, 6, [], []⟩ 0x0B 5
    (by decide) (by decide)
  ⟨h.1, (h.2.2.2 2 3 4).2 (by decide) (by decide)⟩

/-- C10: for every boolean flag, `enable(flag)` is exactly one register write
to the shutdown register 0x0C and `testDisplay(flag)` exactly one to the
display-test register 0x0F, each with data 1 for `true` and 0 for `false`; the
Arduino calls are that one frame and no field of the driver changes. -/
theorem C10_enable_testDisplay (s : ICMIMax7219.Driver) (flag : Bool) :
    ((ICMIMax7219.enable s flag).writes = s.writes ++ [(0x0C, if flag then 1 else 0)] ∧
      (ICMIMax7219.enable s flag).events =
        s.events ++ protocolFrame s.dataPin s.clockPin s.loadPin 5 5 0x0C
          (if flag then 1 else 0) ∧
      (ICMIMax7219.enable s flag).dataPin = s.dataPin ∧
      (ICMIMax7219.enable s flag).clockPin = s.clockPin ∧
      (ICMIMax7219.enable s flag).loadPin = s.loadPin ∧
      (ICMIMax7219.enable s flag).digitCount = s.digitCount) ∧
    ((ICMIMax7219.testDisplay s flag).writes =
        s.writes ++ [(0x0F, if flag then 1 else 0)] ∧
      (ICMIMax7219.testDisplay s flag).events =
        s.events ++ protocolFrame s.dataPin s.clockPin s.loadPin 5 5 0x0F
          (if flag then 1 else 0) ∧
      (ICMIMax7219.testDisplay s flag).dataPin = s.dataPin ∧
      (ICMIMax7219.testDisplay s flag).clockPin = s.clockPin ∧
      (ICMIMax7219.testDisplay s flag).loadPin = s.loadPin ∧
      (ICMIMax7219.testDisplay s flag).digitCount = s.digitCount) := by
  cases flag <;>
  simp [ICMIMax7219.enable, ICMIMax7219.testDisplay, ICMIMax7219.writeBoolRegister,
    ICMIMax7219.writeRegister_eq, REG_SHUTDOWN, REG_DISPLAY_TEST]

/-- C11: `setRow` is an alias of `setDigitRaw`: for every driver state, index
and value, `setRow(which, value)` returns the same driver record as
`setDigitRaw(which, value)`, so the same Arduino calls, the same register
writes and the same fields. -/
theorem C11_setRow_alias (s : ICMIMax7219.Driver) (which value : Nat) :
    ICMIMax7219.setRow s which value = ICMIMax7219.setDigitRaw s which value ∧
    (ICMIMax7219.setRow s which value).events =
      (ICMIMax7219.setDigitRaw s which value).events ∧
    (ICMIMax7219.setRow s which value).writes =
      (ICMIMax7219.setDigitRaw s which value).writes ∧
    (ICMIMax7219.setRow s which value).digitCount =
      (ICMIMax7219.setDigitRaw s which value).digitCount := by
  have h : ICMIMax7219.setRow s which value = ICMIMax7219.setDigitRaw s which value := by
    unfold ICMIMax7219.setRow
    rfl
  exact ⟨h, by rw [h], by rw [h], by rw [h]⟩

/-- C12 (evaluation of the code): the constructor of the plain variant makes
no register write to the intensity register 0x0A, for any `digitCount` and any
pins, neither as a `writeRegister` argument nor as the address byte shifted
out; for `Max7219(2, 3, 4, 8)` the writes are display-test, decode-mode,
scan-limit, the eight digits and shutdown only, whereas `begin(2, 3, 4, 8)` of
the translating variant writes (0x0A, 15). -/
theorem C12_ctor_writes_no_intensity (p : Max7219.Driver) (d c l n : Int) :
    (∀ w ∈ (Max7219.Max7219 p d c l n).writes.drop p.writes.length,
      w.1 ≠ (REG_INTENSITY : Int) ∧ toByte w.1 ≠ REG_INTENSITY) ∧
    (Max7219.Max7219 ⟨0, 0, 0, 0, [], []⟩ 2 3 4 8).writes =
      [(0x0F, 0), (0x09, 0), (0x0B, 7), (1, 0), (2, 0), (3, 0), (4, 0), (5, 0), (6, 0),
        (7, 0), (8, 0), (0x0C, 0)] ∧
    (REG_INTENSITY, 15) ∈ (ICMIMax7219.begin ⟨0, 0, 0, 0, [], []⟩ 2 3 4 8).writes := by
  refine ⟨?_, by decide, by decide⟩
  rw [Max7219.ctor_writes, List.drop_left]
  intro w hw
  simp only [List.mem_cons, List.mem_singleton, List.not_mem_nil, or_false] at hw
  rcases hw with h | h | h | h | h | h | h | h | h | h | h | h <;> subst h <;>
    refine ⟨?_, ?_⟩ <;> dsimp only <;> decide

/-- C13 (evaluation of the code): after `begin(2, 3, 4, 99)` the stored digit
count is 99, and `setDigitRaw(10, 0xFF)` makes one register write to address
11, the scan-limit register, and `setRow(11, 0)` one to address 12, the
shutdown register: addresses outside 1..8. -/
theorem C13_setDigitRaw_reaches_config_registers :
    (ICMIMax7219.begin ⟨0, 0, 0, 0, [], []⟩ 2 3 4 99).digitCount = 99 ∧
    (ICMIMax7219.setDigitRaw (ICMIMax7219.begin ⟨0, 0, 0, 0, [], []⟩ 2 3 4 99) 10 0xFF).writes =
      (ICMIMax7219.begin ⟨0, 0, 0, 0, [], []⟩ 2 3 4 99).writes ++ [(REG_SCAN_LIMIT, 0xFF)] ∧
    (ICMIMax7219.setRow (ICMIMax7219.begin ⟨0, 0, 0, 0, [], []⟩ 2 3 4 99) 11 0).writes =
      (ICMIMax7219.begin ⟨0, 0, 0, 0, [], []⟩ 2 3 4 99).writes ++ [(REG_SHUTDOWN, 0)] ∧
    ¬ (1 ≤ REG_SCAN_LIMIT ∧ REG_SCAN_LIMIT ≤ 8) ∧
    ¬ (1 ≤ REG_SHUTDOWN ∧ REG_SHUTDOWN ≤ 8) := by
  refine ⟨by decide, by decide, by decide, by decide, by decide⟩

set_option maxRecDepth 100000 in
/-- C14: the bit translation of the translating variant's `setDigitRaw` is an
involution on bytes: for every `v` in 0..255, `translate (translate v) = v`;
it maps bytes to bytes, is a bijection of 0..255 onto itself and keeps the
number of set bits (lit segments). -/
theorem C14_translate_involution (v : Nat) (hv : v < 256) :
    ICMIMax7219.translate (ICMIMax7219.translate v) = v ∧
    ICMIMax7219.translate v < 256 ∧
    litSegments (ICMIMax7219.translate v) = litSegments v ∧
    Set.BijOn ICMIMax7219.translate (Set.Iio 256) (Set.Iio 256) := by
  have hall : ∀ x, x < 256 →
      ICMIMax7219.translate (ICMIMax7219.translate x) = x ∧
      ICMIMax7219.translate x < 256 ∧
      litSegments (ICMIMax7219.translate x) = litSegments x := by
    decide
  have hmaps : Set.MapsTo ICMIMax7219.translate (Set.Iio 256) (Set.Iio 256) :=
    fun x hx => (hall x hx).2.1
  have hinv : Set.InvOn ICMIMax7219.translate ICMIMax7219.translate (Set.Iio 256)
      (Set.Iio 256) := ⟨fun x hx => (hall x hx).1, fun x hx => (hall x hx).1⟩
  exact ⟨(hall v hv).1, (hall v hv).2.1, (hall v hv).2.2, hinv.bijOn hmaps hmaps⟩

/-- Witness of C14: the byte `0b01101101` (digit "5"). -/
theorem C14_translate_involution_witness :
    ICMIMax7219.translate (ICMIMax7219.translate 0b01101101) = 0b01101101 ∧
    ICMIMax7219.translate 0b01101101 < 256 ∧
    litSegments (ICMIMax7219.translate 0b01101101) = litSegments 0b01101101 ∧
    Set.BijOn ICMIMax7219.translate (Set.Iio 256) (Set.Iio 256) :=
  C14_translate_involution 0b01101101 (by decide)

/-- C15: the load pin is idle-high between operations.  After `begin`, and
after any sequence of public operations (`enable`, `setIntensity`,
`testDisplay`, `setDigitRaw`, `setRow`, `clearDisplay`) with arbitrary
arguments, the last call in the trace is `digitalWrite(loadPin, HIGH)`, so the
level last driven on the load pin is HIGH; and the Arduino calls of every
single operation, from any driver state, are the concatenation of the complete
frames of the register writes it adds to the log (possibly none), each with a
byte address and a byte value. -/
theorem C15_load_pin_idle_high (s : ICMIMax7219.Driver) (d c l n : Nat)
    (ops : List ICMIMax7219.Op) (t : ICMIMax7219.Driver) (op : ICMIMax7219.Op) :
    (lastLevel l (ICMIMax7219.begin s d c l n).events = some HIGH ∧
      (ICMIMax7219.runAll (ICMIMax7219.begin s d c l n) ops).loadPin = l ∧
      (ICMIMax7219.runAll (ICMIMax7219.begin s d c l n) ops).events.getLast? =
        some (Event.digitalWrite l HIGH) ∧
      lastLevel l (ICMIMax7219.runAll (ICMIMax7219.begin s d c l n) ops).events =
        some HIGH) ∧
    ((ICMIMax7219.Op.run t op).writes.take t.writes.length = t.writes ∧
      (ICMIMax7219.Op.run t op).events =
        t.events ++ frames t.dataPin t.clockPin t.loadPin
          ((ICMIMax7219.Op.run t op).writes.drop t.writes.length) ∧
      (∀ w ∈ (ICMIMax7219.Op.run t op).writes.drop t.writes.length,
        w.1 < 256 ∧ w.2 < 256)) := by
  have hb := ICMIMax7219.begin_ends_high s d c l n
  obtain ⟨h1, h2⟩ := ICMIMax7219.runAll_ends_high ops (ICMIMax7219.begin s d c l n) l
    (ICMIMax7219.begin_loadPin s d c l n) hb
  refine ⟨⟨lastLevel_of_getLast l HIGH _ hb, h1, h2, lastLevel_of_getLast l HIGH _ h2⟩, ?_⟩
  obtain ⟨L, hL, hrun⟩ := ICMIMax7219.run_frames t op
  rw [hrun]
  simp only [List.take_left, List.drop_left, true_and]
  exact hL
